import Mathlib

/-!
# Verification of the noise-image core (seeded PRNG, noise fields, compositing)

Shallow embedding of the repository's core pipeline:

* `src/src/types.ts` (noise generator part): `SeededRandom` (LCG `next`,
  Box-Muller `gaussian`), `generateSensorNoiseMap`, `generateChannelNoise`,
  `getLuminanceNoiseScale`, `noiseToPixelOffset`.
* `src/src/image-processor.ts`: `applyNoise`, `clamp`.
* `src/unnamed/part_000` (config module): `validateConfig`.

Modelling conventions:

* JavaScript numbers are modelled by `JVal`: a finite rational (`JVal.num`)
  or one of the IEEE-754 specials `nan`, `inf`, `ninf`.  Finite arithmetic
  is idealized as exact rational arithmetic (no double rounding); the
  propagation rules for the specials follow the ECMAScript number
  operations.  The distinction between `+0` and `-0` is not modelled.
* The transcendental library functions (`Math.log`, `Math.cos`,
  `Math.sqrt`, `Math.pow`, `Math.PI`) and the `Float32Array` rounding are
  kept abstract in a structure `JSMath`; the wrappers `jlog`, `jcos`,
  `jsqrt`, `jpow15`, `jf32` add the exact ECMAScript special-value cases
  (`log 0 = -∞`, `sqrt` of a negative is `NaN`, …).  `JSMath` carries only
  facts that are true of the real library: `log` is nonpositive on `(0,1]`,
  `pow` of a base in `(0,1]` and positive exponent is finite, the float32
  image of `0` is `0`.
* `Date.now()` is modelled by an explicit natural-number argument `now`,
  threaded to exactly the places that call it.
* `Buffer`s of bytes are `List ℕ` (each entry a byte); `Float32Array`s are
  `List JVal`.  Writing a number to a byte buffer goes through `toUint8`
  (the ECMAScript `ToUint8` coercion used by `Uint8Array` element stores:
  non-finite values become `0`, finite values are truncated and reduced
  mod 256).  Out-of-bounds buffer reads produce a value that behaves as
  `NaN` in arithmetic (JS `undefined` coerces to `NaN`); out-of-bounds
  writes are no-ops, matching `Buffer` semantics and `List.set`.
* `getLuminanceNoiseScale` is additionally modelled over the real numbers
  (`getLuminanceNoiseScale` below, with `**` as `Real.rpow`) for the
  analytic claims about its exact endpoint values and monotonicity.
-/

namespace NoiseImage

/-- A JavaScript number: a finite value (idealized as an exact rational) or
one of the IEEE-754 specials.  The `-0` / `+0` distinction is not modelled. -/
inductive JVal where
  | num (q : ℚ)
  | nan
  | inf
  | ninf
deriving DecidableEq, Repr

namespace JVal

/-- JS unary minus. -/
def jneg : JVal → JVal
  | num q => num (-q)
  | nan => nan
  | inf => ninf
  | ninf => inf

/-- JS addition: exact on finite values, ECMAScript rules for specials
(`∞ + (-∞) = NaN`, `NaN` absorbs). -/
def jadd : JVal → JVal → JVal
  | num a, num b => num (a + b)
  | nan, _ => nan
  | _, nan => nan
  | inf, ninf => nan
  | ninf, inf => nan
  | inf, _ => inf
  | _, inf => inf
  | ninf, _ => ninf
  | _, ninf => ninf

/-- JS subtraction. -/
def jsub (a b : JVal) : JVal := jadd a (jneg b)

/-- JS multiplication: exact on finite values, ECMAScript rules for
specials (`±∞ × 0 = NaN`, sign rules, `NaN` absorbs). -/
def jmul : JVal → JVal → JVal
  | num a, num b => num (a * b)
  | nan, _ => nan
  | _, nan => nan
  | inf, inf => inf
  | inf, ninf => ninf
  | ninf, inf => ninf
  | ninf, ninf => inf
  | inf, num b => if 0 < b then inf else if b < 0 then ninf else nan
  | num a, inf => if 0 < a then inf else if a < 0 then ninf else nan
  | ninf, num b => if 0 < b then ninf else if b < 0 then inf else nan
  | num a, ninf => if 0 < a then ninf else if a < 0 then inf else nan

/-- JS division (the pipeline only divides by the literal `255`; specials
follow ECMAScript, with the `-0` denominator nuance out of the model). -/
def jdiv : JVal → JVal → JVal
  | nan, _ => nan
  | _, nan => nan
  | num a, num b =>
      if b = 0 then (if a = 0 then nan else if 0 < a then inf else ninf)
      else num (a / b)
  | inf, num b => if 0 ≤ b then inf else ninf
  | ninf, num b => if 0 ≤ b then ninf else inf
  | num _, inf => num 0
  | num _, ninf => num 0
  | _, _ => nan

/-- `Math.min`: `NaN` if either argument is `NaN`. -/
def jmin : JVal → JVal → JVal
  | nan, _ => nan
  | _, nan => nan
  | num a, num b => num (min a b)
  | ninf, _ => ninf
  | _, ninf => ninf
  | inf, x => x
  | x, inf => x

/-- `Math.max`: `NaN` if either argument is `NaN`. -/
def jmax : JVal → JVal → JVal
  | nan, _ => nan
  | _, nan => nan
  | num a, num b => num (max a b)
  | inf, _ => inf
  | _, inf => inf
  | ninf, x => x
  | x, ninf => x

end JVal

/-- ECMAScript truncation toward zero of a finite value. -/
def jsTrunc (q : ℚ) : ℤ := if 0 ≤ q then ⌊q⌋ else ⌈q⌉

/-- `Math.round`: `⌊x + 1/2⌋` on finite values (JS rounds halves toward
`+∞`); `NaN` and `±∞` pass through. -/
def jround : JVal → JVal
  | JVal.num q => JVal.num ((⌊q + 1/2⌋ : ℤ) : ℚ)
  | x => x

/-- The ECMAScript `ToUint8` coercion performed by a `Uint8Array`/`Buffer`
element store: `NaN` and `±∞` map to `0`, finite values are truncated
toward zero and reduced modulo 256. -/
def toUint8 : JVal → ℕ
  | JVal.num q => ((jsTrunc q) % 256).toNat
  | _ => 0

/-- The JS remainder operator `a % n` on finite values:
`a - n * trunc(a / n)`. -/
def jsRem (a n : ℚ) : ℚ := a - n * (jsTrunc (a / n) : ℚ)

/-! ## SeededRandom (src/src/types.ts, lines 74–100)

```js
next(): number {
  this.seed = (this.seed * 1664525 + 1013904223) % 4294967296;
  return this.seed / 4294967296;
}
```
The mutable `seed` field is passed explicitly; `next` returns the value
together with the updated state. -/

/-- The LCG state update of `SeededRandom.next`. -/
def nextState (s : ℚ) : ℚ := jsRem (s * 1664525 + 1013904223) 4294967296

/-- The value returned by `SeededRandom.next` from state `s`. -/
def nextVal (s : ℚ) : ℚ := nextState s / 4294967296

/-- `SeededRandom.next`: updates the state, returns `state / 2^32`. -/
def next (s : ℚ) : ℚ × ℚ := (nextVal s, nextState s)

/-- The LCG step restricted to natural-number states (the canonical integer
form of the recurrence; `nextState_natCast` connects it to the source). -/
def natNext (s : ℕ) : ℕ := (s * 1664525 + 1013904223) % 4294967296

theorem jsTrunc_natCast_div (a : ℕ) (n : ℕ) :
    jsTrunc ((a : ℚ) / (n : ℚ)) = (a / n : ℕ) := by
  unfold jsTrunc
  rw [if_pos (by positivity)]
  have h : ((a : ℤ) : ℚ) / ((n : ℕ) : ℚ) = (a : ℚ) / (n : ℚ) := by push_cast; ring
  rw [← h, Rat.floor_intCast_div_natCast a n]
  push_cast
  rfl

/-- On natural-number states the source's floating-point `% 4294967296`
step agrees with the integer recurrence `natNext`. -/
theorem nextState_natCast (s : ℕ) : nextState (s : ℚ) = (natNext s : ℚ) := by
  have key : ∀ a n : ℕ, (a : ℚ) - (n : ℚ) * ((a / n : ℕ) : ℚ) = ((a % n : ℕ) : ℚ) := by
    intro a n
    rw [sub_eq_iff_eq_add, ← Nat.cast_mul, ← Nat.cast_add]
    exact_mod_cast (Nat.mod_add_div a n).symm
  unfold nextState jsRem natNext
  have h1 : (s : ℚ) * 1664525 + 1013904223 = ((s * 1664525 + 1013904223 : ℕ) : ℚ) := by
    push_cast; ring
  rw [h1, show ((4294967296 : ℚ)) = ((4294967296 : ℕ) : ℚ) by norm_num,
    jsTrunc_natCast_div, Int.cast_natCast]
  exact key _ _

theorem iterate_nextState_natCast (s : ℕ) (k : ℕ) :
    nextState^[k] (s : ℚ) = ((natNext^[k] s : ℕ) : ℚ) := by
  induction k generalizing s with
  | zero => rfl
  | succ k ih =>
      rw [Function.iterate_succ_apply, Function.iterate_succ_apply,
        nextState_natCast, ih]

theorem natNext_lt (s : ℕ) : natNext s < 4294967296 :=
  Nat.mod_lt _ (by norm_num)

theorem nextVal_natCast (s : ℕ) :
    nextVal (s : ℚ) = ((natNext s : ℕ) : ℚ) / 4294967296 := by
  rw [nextVal, nextState_natCast]

/-! ## The abstract JS math library

`Math.log`, `Math.cos`, `Math.sqrt`, the `**` operator, `Math.PI` and the
float32 rounding performed by a `Float32Array` store are deterministic
host functions; their values on finite arguments are kept abstract.  The
structure records only facts true of the real library that the proofs
need: the natural logarithm of a value in `(0, 1]` is nonpositive (exact
mathematically, and rounding a nonpositive real to the nearest double
keeps it nonpositive); a power with base in `(0, 1]` and positive
exponent is a finite value in `(0, 1]`, hence finite; float32 rounding
of `0` is exactly `0`. -/
structure JSMath where
  log : ℚ → ℚ
  cos : ℚ → ℚ
  sqrt : ℚ → ℚ
  pow : ℚ → ℚ → JVal
  f32 : ℚ → JVal
  pi : ℚ
  log_nonpos : ∀ q : ℚ, 0 < q → q ≤ 1 → log q ≤ 0
  pow_pos_finite : ∀ b e : ℚ, 0 < b → b ≤ 1 → 0 < e → ∃ r : ℚ, pow b e = JVal.num r
  f32_zero : f32 0 = JVal.num 0

/-- `Math.log` with the ECMAScript special cases: `log 0 = -∞`, `log` of a
negative value is `NaN`, `log ∞ = ∞`, `log` of `NaN`/`-∞` is `NaN`. -/
def jlog (M : JSMath) : JVal → JVal
  | JVal.num q => if q = 0 then JVal.ninf else if q < 0 then JVal.nan else JVal.num (M.log q)
  | JVal.inf => JVal.inf
  | _ => JVal.nan

/-- `Math.cos`: finite on finite arguments, `NaN` on `NaN`/`±∞`. -/
def jcos (M : JSMath) : JVal → JVal
  | JVal.num q => JVal.num (M.cos q)
  | _ => JVal.nan

/-- `Math.sqrt` with the ECMAScript special cases: negative argument gives
`NaN`, `sqrt ∞ = ∞`, `NaN`/`-∞` give `NaN`. -/
def jsqrt (M : JSMath) : JVal → JVal
  | JVal.num q => if q < 0 then JVal.nan else JVal.num (M.sqrt q)
  | JVal.inf => JVal.inf
  | _ => JVal.nan

/-- The `**` operator at the literal exponent `1.5` (the only exponent the
source uses, in `getLuminanceNoiseScale`), with the ECMAScript special
cases: a negative finite base gives `NaN` (non-integer exponent),
`0 ** 1.5 = 0`, `(±∞) ** 1.5 = ∞`, `NaN` propagates. -/
def jpow15 (M : JSMath) : JVal → JVal
  | JVal.num q => if q < 0 then JVal.nan else if q = 0 then JVal.num 0 else M.pow q (3/2)
  | JVal.nan => JVal.nan
  | JVal.inf => JVal.inf
  | JVal.ninf => JVal.inf

/-- The rounding a `Float32Array` element store applies: abstract on
finite values (`JSMath.f32`), identity on the specials (`NaN` and `±∞`
are stored as such). -/
def jf32 (M : JSMath) : JVal → JVal
  | JVal.num q => M.f32 q
  | x => x

/-! ## SeededRandom.gaussian (src/src/types.ts, lines 94–99)

```js
gaussian(mean = 0, stdDev = 1): number {
  const u1 = this.next();
  const u2 = this.next();
  const z0 = Math.sqrt(-2 * Math.log(u1)) * Math.cos(2 * Math.PI * u2);
  return mean + z0 * stdDev;
}
```
The products `2 * Math.PI * u2`, `mean`, `stdDev` are finite rationals in
every call the pipeline makes, so they are passed as `ℚ`. -/
def gaussian (M : JSMath) (mean stdDev : ℚ) (s : ℚ) : JVal × ℚ :=
  let u1 := nextVal s
  let s1 := nextState s
  let u2 := nextVal s1
  let s2 := nextState s1
  let z0 := JVal.jmul (jsqrt M (JVal.jmul (JVal.num (-2)) (jlog M (JVal.num u1))))
      (jcos M (JVal.num (2 * M.pi * u2)))
  (JVal.jadd (JVal.num mean) (JVal.jmul z0 (JVal.num stdDev)), s2)

/-! ## Configuration (src/src/types.ts, lines 4–44; src/unnamed/part_000) -/

/-- `NoiseConfig` from `src/src/types.ts`.  Numeric fields are finite JS
numbers (idealized as exact rationals); `seed` and `smoothing` are
optional. -/
structure NoiseConfig where
  intensity : ℚ
  variance : ℚ
  luminanceDependent : Bool
  microContrast : ℚ
  seed : Option ℚ := none
  smoothing : Option ℚ := none

/-- The error cases of `validateConfig` (`src/unnamed/part_000`,
lines 94–110); each constructor stands for the corresponding thrown
`Error` message (`intensity must be between 0 and 1`, …, `seed must be a
positive integer or undefined`). -/
inductive ConfigError where
  | intensityOutOfRange
  | varianceOutOfRange
  | microContrastOutOfRange
  | seedInvalid
deriving DecidableEq, Repr

/-- `Number.isInteger` on a finite value. -/
def isIntegerQ (q : ℚ) : Bool := q.den = 1

/-- `validateConfig` (`src/unnamed/part_000`, lines 94–110): checks
`intensity`, `variance`, `microContrast` against `[0, 1]` and, when a
seed is present, that it is a nonnegative integer.  (The source contains
no check of the `smoothing` field.) -/
def validateConfig (config : NoiseConfig) : Except ConfigError Unit :=
  if config.intensity < 0 ∨ 1 < config.intensity then
    Except.error ConfigError.intensityOutOfRange
  else if config.variance < 0 ∨ 1 < config.variance then
    Except.error ConfigError.varianceOutOfRange
  else if config.microContrast < 0 ∨ 1 < config.microContrast then
    Except.error ConfigError.microContrastOutOfRange
  else
    match config.seed with
    | some q =>
        if q < 0 ∨ ¬ isIntegerQ q then Except.error ConfigError.seedInvalid
        else Except.ok ()
    | none => Except.ok ()

/-! ## Noise-field generation (src/src/types.ts, lines 110–183) -/

/-- Runs a state-threaded generator `n` times, collecting the produced
values in order (the `for` loops filling the `Float32Array`s). -/
def genList (step : ℚ → JVal × ℚ) : ℕ → ℚ → List JVal × ℚ
  | 0, s => ([], s)
  | n + 1, s =>
      let v := step s
      let rest := genList step n v.2
      (v.1 :: rest.1, rest.2)

/-- The `SeededRandom` constructor seed: `seed ?? Date.now()` — the
nullish-coalescing operator, so a present seed (including `0`) is used
as-is. -/
def seedOrNow (seed : Option ℚ) (now : ℕ) : ℚ :=
  match seed with
  | some q => q
  | none => (now : ℚ)

/-- One iteration of the `generateSensorNoiseMap` loop:
`baseNoise = gaussian(0, intensity)`;
`varianceMultiplier = variance > 0 ? 1 + gaussian(0, variance) : 1`;
store `float32(baseNoise * varianceMultiplier)`. -/
def noiseMapStep (M : JSMath) (cfg : NoiseConfig) (s : ℚ) : JVal × ℚ :=
  let base := gaussian M 0 cfg.intensity s
  if 0 < cfg.variance then
    let g := gaussian M 0 cfg.variance base.2
    (jf32 M (JVal.jmul base.1 (JVal.jadd (JVal.num 1) g.1)), g.2)
  else
    (jf32 M (JVal.jmul base.1 (JVal.num 1)), base.2)

/-- `generateSensorNoiseMap` (src/src/types.ts, lines 110–139), as the
list of float32 values of the returned buffer. -/
def generateSensorNoiseMap (M : JSMath) (width height : ℕ) (cfg : NoiseConfig)
    (now : ℕ) : List JVal :=
  (genList (noiseMapStep M cfg) (width * height) (seedOrNow cfg.seed now)).1

/-- The channel RNG seed of `generateChannelNoise`:
`new SeededRandom(config.seed ? config.seed + 1 : undefined)` — a ternary
on the JS *truthiness* of `config.seed`, so a present seed of `0` is
falsy and falls through to `undefined`, i.e. to `Date.now()`. -/
def channelRngSeed (seed : Option ℚ) (now : ℕ) : ℚ :=
  match seed with
  | some q => if q ≠ 0 then q + 1 else (now : ℚ)
  | none => (now : ℚ)

/-- One iteration of a `createChannelBuffer` loop: `gaussian(0, std)`. -/
def chanStep (M : JSMath) (std : ℚ) (s : ℚ) : JVal × ℚ := gaussian M 0 std s

/-- `generateChannelNoise` (src/src/types.ts, lines 151–183): one RNG
instance shared by the three channel buffers, filled in the order
`r`, `g`, `b` with per-channel standard deviation
`intensity * multiplier * 0.3` and multipliers `1.0`, `0.85`, `1.25`. -/
def generateChannelNoise (M : JSMath) (width height : ℕ) (cfg : NoiseConfig)
    (now : ℕ) : List JVal × List JVal × List JVal :=
  let pixelCount := width * height
  let s0 := channelRngSeed cfg.seed now
  let r := genList (chanStep M (cfg.intensity * 1.0 * 0.3)) pixelCount s0
  let g := genList (chanStep M (cfg.intensity * 0.85 * 0.3)) pixelCount r.2
  let b := genList (chanStep M (cfg.intensity * 1.25 * 0.3)) pixelCount g.2
  (r.1, g.1, b.1)

/-! ## Luminance scaling (src/src/types.ts, lines 192–202) -/

/-- `getLuminanceNoiseScale` acting on a JS value inside the pipeline:
`norm = luminance / 255`; `scale = 1 + (1 - norm) ** 1.5`;
`Math.max(0.5, Math.min(2.0, scale))`. -/
def getLuminanceNoiseScaleJ (M : JSMath) (luminance : JVal) : JVal :=
  let norm := JVal.jdiv luminance (JVal.num 255)
  let scale := JVal.jadd (JVal.num 1) (jpow15 M (JVal.jsub (JVal.num 1) norm))
  JVal.jmax (JVal.num 0.5) (JVal.jmin (JVal.num 2.0) scale)

/-- `getLuminanceNoiseScale` over the real numbers (`**` as `Real.rpow`),
for the analytic properties of the scale curve. -/
noncomputable def getLuminanceNoiseScale (luminance : ℝ) : ℝ :=
  let norm := luminance / 255
  let scale := 1 + (1 - norm) ^ (1.5 : ℝ)
  max 0.5 (min 2.0 scale)

/-! ## Pixel compositing (src/src/image-processor.ts, lines 125–209) -/

/-- `clamp` (src/src/image-processor.ts, lines 207–209):
`Math.max(min, Math.min(max, Math.round(value)))`. -/
def clamp (value lo hi : JVal) : JVal := JVal.jmax lo (JVal.jmin hi (jround value))

/-- A byte-buffer element read `buf[i]`: an out-of-bounds index yields JS
`undefined`, which behaves as `NaN` in the arithmetic that consumes it. -/
def bufRead (l : List ℕ) (i : ℕ) : JVal :=
  if h : i < l.length then JVal.num (l.get ⟨i, h⟩) else JVal.nan

/-- A `Float32Array` element read; out of bounds behaves as `NaN`. -/
def noiseRead (l : List JVal) (i : ℕ) : JVal := l.getD i JVal.nan

/-- The body of the per-pixel loop of `applyNoise`
(src/src/image-processor.ts, lines 168–199) acting on the output buffer.
Out-of-bounds writes are no-ops (`List.set` past the end), matching
`Buffer` element stores. -/
def applyPixel (M : JSMath) (cfg : NoiseConfig) (noiseF rNF gNF bNF : List JVal)
    (out : List ℕ) (i : ℕ) : List ℕ :=
  let pixelIndex := i * 3
  let r := bufRead out pixelIndex
  let g := bufRead out (pixelIndex + 1)
  let b := bufRead out (pixelIndex + 2)
  let luminance := JVal.jadd (JVal.jadd (JVal.jmul (JVal.num 0.2126) r)
      (JVal.jmul (JVal.num 0.7152) g)) (JVal.jmul (JVal.num 0.0722) b)
  let baseNoise0 := noiseRead noiseF i
  let baseNoise := if cfg.luminanceDependent then
      JVal.jmul baseNoise0 (getLuminanceNoiseScaleJ M luminance)
    else baseNoise0
  let rNoise := JVal.jmul (JVal.jadd baseNoise (noiseRead rNF i)) (JVal.num 255)
  let gNoise := JVal.jmul (JVal.jadd baseNoise (noiseRead gNF i)) (JVal.num 255)
  let bNoise := JVal.jmul (JVal.jadd baseNoise (noiseRead bNF i)) (JVal.num 255)
  let out1 := out.set pixelIndex (toUint8 (clamp (JVal.jadd r rNoise) (JVal.num 0) (JVal.num 255)))
  let out2 := out1.set (pixelIndex + 1) (toUint8 (clamp (JVal.jadd g gNoise) (JVal.num 0) (JVal.num 255)))
  out2.set (pixelIndex + 2) (toUint8 (clamp (JVal.jadd b bNoise) (JVal.num 0) (JVal.num 255)))

/-- `applyNoise` (src/src/image-processor.ts, lines 125–202).  The state
is the pair (caller's input buffer, output buffer); the output starts as
`Buffer.from(pixelData)` — a fresh copy — and every write in the loop
targets only the output component, which is how the non-aliasing of the
two buffers appears in the model.  Returns (input buffer as the core
leaves it, output buffer). -/
def applyNoise (M : JSMath) (pixelData : List ℕ) (width height : ℕ)
    (cfg : NoiseConfig) (now : ℕ) : List ℕ × List ℕ :=
  let noiseMap := generateSensorNoiseMap M width height cfg now
  let chan := generateChannelNoise M width height cfg now
  (List.range (width * height)).foldl
    (fun st i => (st.1, applyPixel M cfg noiseMap chan.1 chan.2.1 chan.2.2 st.2 i))
    (pixelData, pixelData)

/-- A concrete `JSMath` instance, used to instantiate the abstract math
library at concrete inputs. -/
def sampleMath : JSMath where
  log _ := -1
  cos _ := 0
  sqrt _ := 0
  pow _ _ := JVal.num 1
  f32 q := JVal.num q
  pi := 355 / 113
  log_nonpos := fun _ _ _ => by norm_num
  pow_pos_finite := fun _ _ _ _ _ => ⟨1, rfl⟩
  f32_zero := rfl

/-- The channel RNG seed restricted to natural-number config seeds and
time values (the integer form of `channelRngSeed`; see
`channelRngSeed_natCast`). -/
def natChannelSeed (s now : ℕ) : ℕ := if s ≠ 0 then s + 1 else now

/-- The configuration of the end-to-end zero-noise scenario:
`intensity = 0`, `variance = 0`, `microContrast = 0`, a present seed, any
luminance-dependence flag and any smoothing value. -/
def zeroNoiseConfig (lumDep : Bool) (s : ℚ) (sm : Option ℚ) : NoiseConfig :=
  { intensity := 0, variance := 0, luminanceDependent := lumDep,
    microContrast := 0, seed := some s, smoothing := sm }

/-- The seed `634785765` is the unique 32-bit seed whose first LCG state
is exactly `0` (so the first uniform draw is exactly `0.0`); this config
instantiates the zero-noise scenario at that seed. -/
def c4CexConfig : NoiseConfig := zeroNoiseConfig false 634785765 none

/-- A concrete valid configuration used to instantiate theorems. -/
def witnessConfig : NoiseConfig :=
  { intensity := 1/100, variance := 1/4, luminanceDependent := true,
    microContrast := 1/5, seed := some 42, smoothing := none }

/-- A configuration whose `smoothing` value `2` lies outside `[0, 1]`
while every field `validateConfig` checks is in range. -/
def smoothingCexConfig : NoiseConfig :=
  { intensity := 1/2, variance := 1/2, luminanceDependent := true,
    microContrast := 1/2, seed := some 3, smoothing := some 2 }

/-! ## Helper lemmas -/

theorem genList_length (step : ℚ → JVal × ℚ) (n : ℕ) :
    ∀ s, (genList step n s).1.length = n := by
  induction n with
  | zero => intro s; rfl
  | succ n ih => intro s; simp [genList, ih]

theorem toUint8_le (v : JVal) : toUint8 v ≤ 255 := by
  cases v with
  | num q =>
      have h1 : 0 ≤ jsTrunc q % 256 := Int.emod_nonneg _ (by norm_num)
      have h2 : jsTrunc q % 256 < 256 := Int.emod_lt_of_pos _ (by norm_num)
      simp only [toUint8]
      omega
  | nan => exact Nat.zero_le _
  | inf => exact Nat.zero_le _
  | ninf => exact Nat.zero_le _

theorem applyPixel_length (M : JSMath) (cfg : NoiseConfig)
    (noiseF rNF gNF bNF : List JVal) (out : List ℕ) (i : ℕ) :
    (applyPixel M cfg noiseF rNF gNF bNF out i).length = out.length := by
  simp [applyPixel]

theorem applyPixel_bytes_le (M : JSMath) (cfg : NoiseConfig)
    (noiseF rNF gNF bNF : List JVal) (out : List ℕ) (i : ℕ)
    (h : ∀ b ∈ out, b ≤ 255) :
    ∀ b ∈ applyPixel M cfg noiseF rNF gNF bNF out i, b ≤ 255 := by
  intro b hb
  simp only [applyPixel] at hb
  rcases List.mem_or_eq_of_mem_set hb with hb1 | hb1
  · rcases List.mem_or_eq_of_mem_set hb1 with hb2 | hb2
    · rcases List.mem_or_eq_of_mem_set hb2 with hb3 | hb3
      · exact h b hb3
      · exact hb3 ▸ toUint8_le _
    · exact hb2 ▸ toUint8_le _
  · exact hb1 ▸ toUint8_le _

theorem pixelLoop_fst (M : JSMath) (cfg : NoiseConfig)
    (noiseF rNF gNF bNF : List JVal) (l : List ℕ) :
    ∀ st : List ℕ × List ℕ,
      (l.foldl (fun st i => (st.1, applyPixel M cfg noiseF rNF gNF bNF st.2 i)) st).1 = st.1 := by
  induction l with
  | nil => intro st; rfl
  | cons a l ih => intro st; simpa using ih _

theorem pixelLoop_length (M : JSMath) (cfg : NoiseConfig)
    (noiseF rNF gNF bNF : List JVal) (l : List ℕ) :
    ∀ st : List ℕ × List ℕ,
      (l.foldl (fun st i => (st.1, applyPixel M cfg noiseF rNF gNF bNF st.2 i)) st).2.length =
        st.2.length := by
  induction l with
  | nil => intro st; rfl
  | cons a l ih =>
      intro st
      simpa [applyPixel_length] using ih (st.1, applyPixel M cfg noiseF rNF gNF bNF st.2 a)

theorem pixelLoop_bytes_le (M : JSMath) (cfg : NoiseConfig)
    (noiseF rNF gNF bNF : List JVal) (l : List ℕ) :
    ∀ st : List ℕ × List ℕ, (∀ b ∈ st.2, b ≤ 255) →
      ∀ b ∈ (l.foldl (fun st i => (st.1, applyPixel M cfg noiseF rNF gNF bNF st.2 i)) st).2,
        b ≤ 255 := by
  induction l with
  | nil => intro st h; exact h
  | cons a l ih =>
      intro st h
      exact ih (st.1, applyPixel M cfg noiseF rNF gNF bNF st.2 a)
        (applyPixel_bytes_le M cfg noiseF rNF gNF bNF st.2 a h)

/-! ## Claim theorems -/

/-- C1: for every nonnegative integer state, `SeededRandom.next` updates
the state to `(state × 1664525 + 1013904223) mod 2^32` and returns
`state / 2^32`; in particular, constructed with seed `1`, the first call
updates the state to `1015568748` and returns `1015568748 / 2^32`. -/
theorem C1_next_lcg_step :
    (∀ s : ℕ, next (s : ℚ) =
      ((((s * 1664525 + 1013904223) % 4294967296 : ℕ) : ℚ) / 4294967296,
        (((s * 1664525 + 1013904223) % 4294967296 : ℕ) : ℚ))) ∧
    next (1 : ℚ) = ((1015568748 : ℚ) / 4294967296, (1015568748 : ℚ)) := by
  have hgen : ∀ s : ℕ, next (s : ℚ) =
      ((((s * 1664525 + 1013904223) % 4294967296 : ℕ) : ℚ) / 4294967296,
        (((s * 1664525 + 1013904223) % 4294967296 : ℕ) : ℚ)) := by
    intro s
    rw [next, nextVal_natCast, nextState_natCast]
    rfl
  refine ⟨hgen, ?_⟩
  have h1 := hgen 1
  norm_num at h1 ⊢
  exact h1

/-- C8: every `gaussian(mean, stdDev)` call consumes exactly two uniform
draws — the state advances exactly twice — and returns
`mean + sqrt(-2·ln(u1))·cos(2π·u2)·stdDev` where `u1` is the first draw
and `u2` the second; only the cosine branch of Box-Muller occurs. -/
theorem C8_gaussian_two_draws_cosine :
    ∀ (M : JSMath) (mean stdDev s : ℚ),
      gaussian M mean stdDev s =
        (JVal.jadd (JVal.num mean)
          (JVal.jmul
            (JVal.jmul
              (jsqrt M (JVal.jmul (JVal.num (-2)) (jlog M (JVal.num (nextVal s)))))
              (jcos M (JVal.num (2 * M.pi * nextVal (nextState s)))))
            (JVal.num stdDev)),
          nextState^[2] s) := by
  intro M mean stdDev s
  simp [gaussian, Function.iterate_succ_apply, Function.iterate_zero_apply]

/-- C9: from every nonnegative integer seed, every call of
`SeededRandom.next` returns a value in `[0, 1)` — never exactly `1.0`,
because the state after the `mod 2^32` step is strictly below `2^32` —
while some seed makes a call return exactly `0.0`. -/
theorem C9_next_range :
    (∀ (s k : ℕ), 0 ≤ (next (nextState^[k] (s : ℚ))).1 ∧
      (next (nextState^[k] (s : ℚ))).1 < 1) ∧
    (∃ s : ℕ, (next (s : ℚ)).1 = 0) := by
  constructor
  · intro s k
    have hval : (next (nextState^[k] (s : ℚ))).1 = nextVal (nextState^[k] (s : ℚ)) := rfl
    rw [hval, iterate_nextState_natCast, nextVal_natCast]
    constructor
    · positivity
    · rw [div_lt_one (by norm_num)]
      exact_mod_cast natNext_lt _
  · refine ⟨634785765, ?_⟩
    have hval : (next ((634785765 : ℕ) : ℚ)).1 = nextVal ((634785765 : ℕ) : ℚ) := rfl
    have h := nextVal_natCast 634785765
    norm_num [natNext] at h hval ⊢
    exact hval.trans h

/-- C10: the compositing pass leaves the caller's input buffer unchanged
(every write of the pixel loop targets only the output copy created by
`Buffer.from`) and the output buffer has the same length as the input. -/
theorem C10_applyNoise_frame_and_length :
    ∀ (M : JSMath) (pixelData : List ℕ) (width height : ℕ)
      (cfg : NoiseConfig) (now : ℕ),
      (applyNoise M pixelData width height cfg now).1 = pixelData ∧
      (applyNoise M pixelData width height cfg now).2.length = pixelData.length := by
  intro M pixelData width height cfg now
  unfold applyNoise
  constructor
  · exact pixelLoop_fst _ _ _ _ _ _ _ _
  · exact pixelLoop_length _ _ _ _ _ _ _ _

/-- C3 counterexample: the claim says a present seed of `0` makes the
channel generator seed its RNG with `0 + 1`; in the code `config.seed` is
tested for JS truthiness, `0` is falsy, and the channel RNG is seeded
from the time source instead (here the time value `7`, which is not
`0 + 1`). -/
theorem C3_cex_seed_zero_goes_to_time_source :
    channelRngSeed (some 0) 7 = 7 ∧ ((7 : ℚ) ≠ 0 + 1) := by
  constructor
  · simp [channelRngSeed]
  · norm_num

/-- C3 (amended): the channel generator seeds its RNG with
`config.seed + 1` exactly when a seed is present and nonzero; with a
present seed of `0`, and with no seed, it is seeded from the time
source. -/
theorem C3_channel_seed_amended :
    (∀ (q : ℚ) (now : ℕ), q ≠ 0 → channelRngSeed (some q) now = q + 1) ∧
    (∀ now : ℕ, channelRngSeed (some 0) now = (now : ℚ)) ∧
    (∀ now : ℕ, channelRngSeed none now = (now : ℚ)) := by
  refine ⟨?_, ?_, ?_⟩
  · intro q now hq
    simp [channelRngSeed, hq]
  · intro now
    simp [channelRngSeed]
  · intro now
    simp [channelRngSeed]

/-- Witness for C3 (amended) at seed `5`, time value `9`. -/
theorem C3_channel_seed_amended_witness :
    (5 : ℚ) ≠ 0 ∧ channelRngSeed (some 5) 9 = 5 + 1 :=
  ⟨by norm_num, C3_channel_seed_amended.1 5 9 (by norm_num)⟩

/-- C7 counterexample: the claim says validation rejects any numeric
field outside its range, `smoothing` included; the code never checks
`smoothing`, so a config with `smoothing = 2 ∉ [0, 1]` (and all checked
fields in range) passes validation. -/
theorem C7_cex_smoothing_unchecked :
    validateConfig smoothingCexConfig = Except.ok () ∧
    smoothingCexConfig.smoothing = some 2 ∧ (1 : ℚ) < 2 := by
  refine ⟨?_, rfl, by norm_num⟩
  norm_num [validateConfig, smoothingCexConfig, isIntegerQ]

/-- C7 (amended): `validateConfig` accepts a configuration exactly when
`intensity`, `variance` and `microContrast` lie in `[0, 1]` and any
present seed is a nonnegative integer; the optional `smoothing` field is
not checked.  (In the CLI the check runs before any processing.) -/
theorem C7_validate_config_amended :
    ∀ cfg : NoiseConfig,
      validateConfig cfg = Except.ok () ↔
        (0 ≤ cfg.intensity ∧ cfg.intensity ≤ 1 ∧
         0 ≤ cfg.variance ∧ cfg.variance ≤ 1 ∧
         0 ≤ cfg.microContrast ∧ cfg.microContrast ≤ 1 ∧
         ∀ q : ℚ, cfg.seed = some q → 0 ≤ q ∧ q.den = 1) := by
  intro cfg
  constructor
  · intro hok
    by_cases h1 : cfg.intensity < 0 ∨ 1 < cfg.intensity
    · rw [validateConfig, if_pos h1] at hok
      exact absurd hok (by simp)
    by_cases h2 : cfg.variance < 0 ∨ 1 < cfg.variance
    · rw [validateConfig, if_neg h1, if_pos h2] at hok
      exact absurd hok (by simp)
    by_cases h3 : cfg.microContrast < 0 ∨ 1 < cfg.microContrast
    · rw [validateConfig, if_neg h1, if_neg h2, if_pos h3] at hok
      exact absurd hok (by simp)
    rw [validateConfig, if_neg h1, if_neg h2, if_neg h3] at hok
    push_neg at h1 h2 h3
    refine ⟨h1.1, h1.2, h2.1, h2.2, h3.1, h3.2, ?_⟩
    intro q hq
    rw [hq] at hok
    dsimp only at hok
    by_cases h4 : q < 0 ∨ ¬ isIntegerQ q
    · rw [if_pos h4] at hok
      exact absurd hok (by simp)
    · push_neg at h4
      exact ⟨h4.1, by simpa [isIntegerQ] using h4.2⟩
  · rintro ⟨ha1, ha2, hb1, hb2, hc1, hc2, hd⟩
    rw [validateConfig, if_neg (by push_neg; exact ⟨ha1, ha2⟩),
      if_neg (by push_neg; exact ⟨hb1, hb2⟩), if_neg (by push_neg; exact ⟨hc1, hc2⟩)]
    rcases hseed : cfg.seed with _ | q
    · rfl
    · have hq := hd q hseed
      dsimp only
      rw [if_neg (by push_neg; exact ⟨hq.1, by simp [isIntegerQ, hq.2]⟩)]

/-- Witness for C7 (amended) at a concrete valid configuration. -/
theorem C7_validate_config_amended_witness :
    validateConfig witnessConfig = Except.ok () :=
  (C7_validate_config_amended witnessConfig).2
    ⟨by norm_num [witnessConfig], by norm_num [witnessConfig],
     by norm_num [witnessConfig], by norm_num [witnessConfig],
     by norm_num [witnessConfig], by norm_num [witnessConfig],
     by intro q hq; simp [witnessConfig] at hq; subst hq; norm_num⟩

/-- C2: with a present seed, the base noise field is a deterministic pure
function of `(seed, intensity, variance, width, height)` — two runs with
the same such data (and arbitrary, possibly different, time values)
produce element-wise identical float32 lists of length
`width × height`. -/
theorem C2_sensor_noise_map_deterministic :
    ∀ (M : JSMath) (width height : ℕ) (cfg cfg2 : NoiseConfig) (s : ℚ)
      (now now2 : ℕ),
      cfg.seed = some s → cfg2.seed = some s →
      cfg.intensity = cfg2.intensity → cfg.variance = cfg2.variance →
      generateSensorNoiseMap M width height cfg now =
        generateSensorNoiseMap M width height cfg2 now2 ∧
      (generateSensorNoiseMap M width height cfg now).length = width * height := by
  intro M width height cfg cfg2 s now now2 hs hs2 hi hv
  have hstep : noiseMapStep M cfg = noiseMapStep M cfg2 := by
    funext st
    rw [noiseMapStep, noiseMapStep, hi, hv]
  constructor
  · simp only [generateSensorNoiseMap, hstep, hs, hs2, seedOrNow]
  · simp only [generateSensorNoiseMap, genList_length]

/-- Witness for C2 at seed `42`, dimensions `2 × 2`, time values `5`
and `9`. -/
theorem C2_sensor_noise_map_deterministic_witness :
    witnessConfig.seed = some 42 ∧
    generateSensorNoiseMap sampleMath 2 2 witnessConfig 5 =
      generateSensorNoiseMap sampleMath 2 2 witnessConfig 9 ∧
    (generateSensorNoiseMap sampleMath 2 2 witnessConfig 5).length = 2 * 2 :=
  ⟨rfl,
    (C2_sensor_noise_map_deterministic sampleMath 2 2 witnessConfig witnessConfig
      42 5 9 rfl rfl rfl rfl).1,
    (C2_sensor_noise_map_deterministic sampleMath 2 2 witnessConfig witnessConfig
      42 5 9 rfl rfl rfl rfl).2⟩

/-- C5: whatever the input byte buffer, dimensions and configuration —
and even when an intermediate noise contribution is non-finite — every
byte of the output buffer lies in `[0, 255]`: each written byte passes
through the `ToUint8` store coercion after the clamp, and unwritten bytes
are copies of input bytes. -/
theorem C5_output_bytes_in_range :
    ∀ (M : JSMath) (pixelData : List ℕ) (width height : ℕ)
      (cfg : NoiseConfig) (now : ℕ),
      (∀ b ∈ pixelData, b ≤ 255) →
      ∀ b ∈ (applyNoise M pixelData width height cfg now).2, b ≤ 255 := by
  intro M pixelData width height cfg now h
  unfold applyNoise
  exact pixelLoop_bytes_le _ _ _ _ _ _ _ (pixelData, pixelData) h

/-- Witness for C5 on a concrete 1×1 image. -/
theorem C5_output_bytes_in_range_witness :
    (∀ b ∈ [10, 250, 77], b ≤ 255) ∧
    (∀ b ∈ (applyNoise sampleMath [10, 250, 77] 1 1 witnessConfig 0).2, b ≤ 255) :=
  ⟨by decide,
    C5_output_bytes_in_range sampleMath [10, 250, 77] 1 1 witnessConfig 0 (by decide)⟩

/-- C6: the luminance noise scale satisfies `scale 0 = 2` exactly,
`scale 255 = 1` exactly, is monotonically non-increasing on `[0, 255]`,
and always lies in `[0.5, 2]`. -/
theorem C6_luminance_scale_properties :
    getLuminanceNoiseScale 0 = 2 ∧
    getLuminanceNoiseScale 255 = 1 ∧
    (∀ L1 L2 : ℝ, 0 ≤ L1 → L1 < L2 → L2 ≤ 255 →
      getLuminanceNoiseScale L2 ≤ getLuminanceNoiseScale L1) ∧
    (∀ L : ℝ, 0.5 ≤ getLuminanceNoiseScale L ∧ getLuminanceNoiseScale L ≤ 2) := by
  refine ⟨?_, ?_, ?_, ?_⟩
  · show max 0.5 (min 2.0 (1 + (1 - (0 : ℝ)/255) ^ (1.5 : ℝ))) = 2
    rw [show (1 - (0 : ℝ)/255) = 1 by norm_num, Real.one_rpow]
    norm_num
  · show max 0.5 (min 2.0 (1 + (1 - (255 : ℝ)/255) ^ (1.5 : ℝ))) = 1
    rw [show (1 - (255 : ℝ)/255) = 0 by norm_num,
      Real.zero_rpow (by norm_num : (1.5 : ℝ) ≠ 0)]
    norm_num
  · intro L1 L2 h0 h12 h255
    show max 0.5 (min 2.0 (1 + (1 - L2/255) ^ (1.5 : ℝ))) ≤
      max 0.5 (min 2.0 (1 + (1 - L1/255) ^ (1.5 : ℝ)))
    have hb2 : (0 : ℝ) ≤ 1 - L2/255 := by
      have : L2/255 ≤ 1 := (div_le_one (by norm_num)).2 h255
      linarith
    have hb12 : 1 - L2/255 ≤ 1 - L1/255 := by
      have : L1/255 ≤ L2/255 := by
        apply div_le_div_of_nonneg_right h12.le
        norm_num
      linarith
    have hr := Real.rpow_le_rpow hb2 hb12 (by norm_num : (0 : ℝ) ≤ 1.5)
    exact max_le_max (le_refl _) (min_le_min (le_refl _) (by linarith))
  · intro L
    constructor
    · exact le_max_left _ _
    · exact max_le (by norm_num) (le_trans (min_le_left _ _) (by norm_num))

/-- Witness for C6 (monotonicity part) at luminances `10 < 20`. -/
theorem C6_luminance_scale_properties_witness :
    ((0 : ℝ) ≤ 10 ∧ (10 : ℝ) < 20 ∧ (20 : ℝ) ≤ 255) ∧
    getLuminanceNoiseScale 20 ≤ getLuminanceNoiseScale 10 :=
  ⟨⟨by norm_num, by norm_num, by norm_num⟩,
    C6_luminance_scale_properties.2.2.1 10 20 (by norm_num) (by norm_num) (by norm_num)⟩

/-! ## Evaluation lemmas for the zero-noise scenario (C4) -/

theorem jadd_num (a b : ℚ) : JVal.jadd (JVal.num a) (JVal.num b) = JVal.num (a + b) := rfl

theorem jmul_num (a b : ℚ) : JVal.jmul (JVal.num a) (JVal.num b) = JVal.num (a * b) := rfl

theorem jneg_num (a : ℚ) : JVal.jneg (JVal.num a) = JVal.num (-a) := rfl

theorem jsub_num (a b : ℚ) : JVal.jsub (JVal.num a) (JVal.num b) = JVal.num (a - b) := by
  rw [JVal.jsub, jneg_num, jadd_num, sub_eq_add_neg]

theorem jmin_num (a b : ℚ) : JVal.jmin (JVal.num a) (JVal.num b) = JVal.num (min a b) := rfl

theorem jmax_num (a b : ℚ) : JVal.jmax (JVal.num a) (JVal.num b) = JVal.num (max a b) := rfl

theorem jdiv_num (a b : ℚ) (hb : b ≠ 0) :
    JVal.jdiv (JVal.num a) (JVal.num b) = JVal.num (a / b) := by
  simp [JVal.jdiv, hb]

theorem jadd_num_nan (a : ℚ) : JVal.jadd (JVal.num a) JVal.nan = JVal.nan := rfl

theorem jmul_nan_num (a : ℚ) : JVal.jmul JVal.nan (JVal.num a) = JVal.nan := rfl

theorem channelRngSeed_natCast (s now : ℕ) :
    channelRngSeed (some (s : ℚ)) now = ((natChannelSeed s now : ℕ) : ℚ) := by
  unfold channelRngSeed natChannelSeed
  by_cases hs : s = 0
  · subst hs; simp
  · have hq : ((s : ℚ)) ≠ 0 := Nat.cast_ne_zero.2 hs
    simp [hs, hq]

theorem nextVal_pos (s : ℕ) (h : natNext s ≠ 0) : 0 < nextVal (s : ℚ) := by
  rw [nextVal_natCast]
  exact div_pos (by exact_mod_cast Nat.pos_of_ne_zero h) (by norm_num)

theorem nextVal_le_one (s : ℕ) : nextVal (s : ℚ) ≤ 1 := by
  rw [nextVal_natCast]
  rw [div_le_one (by norm_num)]
  exact_mod_cast (natNext_lt s).le

/-- With a zero standard deviation and a first uniform draw in `(0, 1]`,
a gaussian draw returns exactly `mean` (the finite Box-Muller value is
multiplied by `0`), consuming two states. -/
theorem gaussian_std_zero (M : JSMath) (mean : ℚ) (s : ℚ)
    (h0 : 0 < nextVal s) (h1 : nextVal s ≤ 1) :
    gaussian M mean 0 s = (JVal.num mean, nextState (nextState s)) := by
  have hlog := M.log_nonpos (nextVal s) h0 h1
  have hguard : ¬((-2 : ℚ) * M.log (nextVal s) < 0) :=
    not_lt.2 (by nlinarith)
  unfold gaussian
  simp only [jlog]
  rw [if_neg h0.ne', if_neg (not_lt.2 h0.le)]
  simp only [jmul_num, jsqrt]
  rw [if_neg hguard]
  simp only [jcos, jmul_num, jadd_num]
  norm_num

/-- One iteration of `genList` unfolded. -/
theorem genList_one (step : ℚ → JVal × ℚ) (s : ℚ) :
    genList step 1 s = ([(step s).1], (step s).2) := rfl

theorem natNext_two (x : ℕ) : natNext^[2] x = natNext (natNext x) := by
  rw [show (2 : ℕ) = 1 + 1 from rfl, Function.iterate_add_apply, Function.iterate_one]

theorem natNext_four (x : ℕ) :
    natNext^[4] x = natNext (natNext (natNext (natNext x))) := by
  rw [show (4 : ℕ) = 1 + (1 + (1 + 1)) from rfl, Function.iterate_add_apply,
    Function.iterate_add_apply, Function.iterate_add_apply, Function.iterate_one]

/-- The base noise field of a 1×1 image at the zero-noise configuration
with a seed whose first LCG state is nonzero: a single exact `0.0`. -/
theorem sensorMap_zeroNoise (M : JSMath) (lumDep : Bool) (sm : Option ℚ)
    (s now : ℕ) (h : natNext s ≠ 0) :
    generateSensorNoiseMap M 1 1 (zeroNoiseConfig lumDep (s : ℚ) sm) now =
      [JVal.num 0] := by
  have hg := gaussian_std_zero M 0 (s : ℚ) (nextVal_pos s h) (nextVal_le_one s)
  unfold generateSensorNoiseMap zeroNoiseConfig seedOrNow
  rw [show (1 * 1 : ℕ) = 1 from rfl, genList_one]
  unfold noiseMapStep
  dsimp only
  rw [if_neg (lt_irrefl (0 : ℚ)), hg]
  dsimp only
  rw [jmul_num, zero_mul, jf32, M.f32_zero]

/-- The three channel noise fields of a 1×1 image at the zero-noise
configuration: the shared channel RNG produces three gaussians with
standard deviation `0`, all exactly `0.0`, provided the first uniform
draw of each is nonzero. -/
theorem channelNoise_zeroNoise (M : JSMath) (lumDep : Bool) (sm : Option ℚ)
    (s now : ℕ)
    (h1 : natNext (natChannelSeed s now) ≠ 0)
    (h3 : natNext (natNext^[2] (natChannelSeed s now)) ≠ 0)
    (h5 : natNext (natNext^[4] (natChannelSeed s now)) ≠ 0) :
    generateChannelNoise M 1 1 (zeroNoiseConfig lumDep (s : ℚ) sm) now =
      ([JVal.num 0], [JVal.num 0], [JVal.num 0]) := by
  set ncs := natChannelSeed s now with hncs
  have hg1 := gaussian_std_zero M 0 ((ncs : ℕ) : ℚ) (nextVal_pos _ h1) (nextVal_le_one _)
  have hg2 := gaussian_std_zero M 0 ((natNext^[2] ncs : ℕ) : ℚ)
    (nextVal_pos _ h3) (nextVal_le_one _)
  have hg3 := gaussian_std_zero M 0 ((natNext^[4] ncs : ℕ) : ℚ)
    (nextVal_pos _ h5) (nextVal_le_one _)
  have hit2 : nextState (nextState ((ncs : ℕ) : ℚ)) = ((natNext^[2] ncs : ℕ) : ℚ) := by
    rw [nextState_natCast, nextState_natCast, natNext_two]
  have hit4 : nextState (nextState ((natNext^[2] ncs : ℕ) : ℚ)) =
      ((natNext^[4] ncs : ℕ) : ℚ) := by
    rw [nextState_natCast, nextState_natCast, natNext_two, natNext_four]
  unfold generateChannelNoise chanStep
  dsimp only
  rw [show (zeroNoiseConfig lumDep (s : ℚ) sm).seed = some (s : ℚ) from rfl,
    show (zeroNoiseConfig lumDep (s : ℚ) sm).intensity = 0 from rfl,
    channelRngSeed_natCast, ← hncs]
  rw [show ((0 : ℚ) * 1.0 * 0.3) = 0 by norm_num,
    show ((0 : ℚ) * 0.85 * 0.3) = 0 by norm_num,
    show ((0 : ℚ) * 1.25 * 0.3) = 0 by norm_num]
  rw [show (1 * 1 : ℕ) = 1 from rfl]
  simp only [genList_one]
  rw [hg1]
  dsimp only
  rw [hit2, hg2]
  dsimp only
  rw [hit4, hg3]

/-- The luminance scale at the exact pixel luminance `250` is some finite
value (the power has base `1 - 250/255 = 1/51 ∈ (0, 1]`). -/
theorem scaleJ_finite_at_250 (M : JSMath) :
    ∃ x : ℚ, getLuminanceNoiseScaleJ M (JVal.num 250) = JVal.num x := by
  obtain ⟨r, hr⟩ := M.pow_pos_finite (1 - 250/255) (3/2)
    (by norm_num) (by norm_num) (by norm_num)
  refine ⟨max 0.5 (min 2.0 (1 + r)), ?_⟩
  simp only [getLuminanceNoiseScaleJ,
    jdiv_num 250 255 (by norm_num : (255 : ℚ) ≠ 0), jsub_num, jpow15]
  rw [if_neg (by norm_num : ¬((1 : ℚ) - 250/255 < 0)),
    if_neg (by norm_num : ¬((1 : ℚ) - 250/255 = 0)), hr, jadd_num, jmin_num, jmax_num]

/-- Round/clamp/store of an exact byte value is the identity. -/
theorem clamp_byte (n : ℕ) (h : n ≤ 255) :
    toUint8 (clamp (JVal.num (n : ℚ)) (JVal.num 0) (JVal.num 255)) = n := by
  have hfloor : ⌊(n : ℚ) + 1/2⌋ = (n : ℤ) :=
    Int.floor_eq_iff.2 ⟨by push_cast; linarith, by push_cast; linarith⟩
  have hround : jround (JVal.num (n : ℚ)) = JVal.num ((n : ℤ) : ℚ) := by
    simp only [jround, hfloor]
  have htr : jsTrunc ((n : ℕ) : ℚ) = (n : ℤ) := by
    unfold jsTrunc
    rw [if_pos (by positivity), Int.floor_natCast]
  unfold clamp
  rw [hround, show (((n : ℤ)) : ℚ) = ((n : ℕ) : ℚ) by push_cast; rfl,
    jmin_num, jmax_num,
    min_eq_right (by exact_mod_cast h : ((n : ℕ) : ℚ) ≤ 255),
    max_eq_right (by positivity : (0 : ℚ) ≤ ((n : ℕ) : ℚ))]
  simp only [toUint8]
  rw [htr, Int.emod_eq_of_lt (by positivity)
    (by exact_mod_cast Nat.lt_succ_of_le h : (n : ℤ) < 256)]
  simp

/-- The per-pixel pass on a 1×1 image with pixel `(250, 250, 250)` and
all four noise entries exactly `0.0`: every channel contribution is `0`
and the pixel is written back unchanged (whether or not the
luminance-dependent scaling runs, since the scale at luminance `250` is
finite). -/
theorem applyPixel_zeroNoise (M : JSMath) (lumDep : Bool) (sq : ℚ) (sm : Option ℚ) :
    applyPixel M (zeroNoiseConfig lumDep sq sm) [JVal.num 0] [JVal.num 0] [JVal.num 0]
      [JVal.num 0] [250, 250, 250] 0 = [250, 250, 250] := by
  obtain ⟨x, hx⟩ := scaleJ_finite_at_250 M
  have h0 : bufRead [250, 250, 250] (0 * 3) = JVal.num 250 := by norm_num [bufRead]
  have h1 : bufRead [250, 250, 250] (0 * 3 + 1) = JVal.num 250 := by norm_num [bufRead]
  have h2 : bufRead [250, 250, 250] (0 * 3 + 2) = JVal.num 250 := by norm_num [bufRead]
  have hlum : JVal.jadd (JVal.jadd (JVal.jmul (JVal.num 0.2126) (JVal.num 250))
      (JVal.jmul (JVal.num 0.7152) (JVal.num 250)))
      (JVal.jmul (JVal.num 0.0722) (JVal.num 250)) = JVal.num 250 := by
    rw [jmul_num, jmul_num, jmul_num, jadd_num, jadd_num]
    norm_num
  have hbase : (if (zeroNoiseConfig lumDep sq sm).luminanceDependent then
      JVal.jmul (noiseRead [JVal.num 0] 0) (getLuminanceNoiseScaleJ M (JVal.num 250))
    else noiseRead [JVal.num 0] 0) = JVal.num 0 := by
    cases lumDep with
    | false => rfl
    | true =>
        rw [show (zeroNoiseConfig true sq sm).luminanceDependent = true from rfl,
          if_pos rfl, show noiseRead [JVal.num 0] 0 = JVal.num 0 from rfl, hx, jmul_num]
        norm_num
  have hz : JVal.jmul (JVal.jadd (JVal.num 0) (noiseRead [JVal.num 0] 0))
      (JVal.num 255) = JVal.num 0 := by
    rw [show noiseRead [JVal.num 0] 0 = JVal.num 0 from rfl, jadd_num, jmul_num]
    norm_num
  have hadd250 : JVal.jadd (JVal.num 250) (JVal.num 0) = JVal.num 250 := by
    rw [jadd_num]; norm_num
  have hc : toUint8 (clamp (JVal.num 250) (JVal.num 0) (JVal.num 255)) = 250 := by
    have h := clamp_byte 250 (by norm_num)
    norm_num at h
    exact h
  simp only [applyPixel, h0, h1, h2, hlum, hbase, hz, hadd250, hc]
  decide

/-- C4 (amended): the zero-noise scenario — a 1×1 image with pixel
`(250, 250, 250)`, `intensity = 0`, `variance = 0`, `microContrast = 0`
and a present seed — reproduces the pixel exactly, for every seed whose
consumed Box-Muller first draws are all nonzero (the base stream's first
draw and the channel stream's first, third and fifth draws).  Seeds
violating this produce a `NaN` noise value instead; see the
counterexample. -/
theorem C4_zero_noise_amended :
    ∀ (M : JSMath) (lumDep : Bool) (sm : Option ℚ) (s now : ℕ),
      natNext s ≠ 0 →
      natNext (natChannelSeed s now) ≠ 0 →
      natNext (natNext^[2] (natChannelSeed s now)) ≠ 0 →
      natNext (natNext^[4] (natChannelSeed s now)) ≠ 0 →
      (applyNoise M [250, 250, 250] 1 1 (zeroNoiseConfig lumDep (s : ℚ) sm) now).2 =
        [250, 250, 250] := by
  intro M lumDep sm s now h1 h2 h3 h5
  have hmap := sensorMap_zeroNoise M lumDep sm s now h1
  have hchan := channelNoise_zeroNoise M lumDep sm s now h2 h3 h5
  simp only [applyNoise]
  rw [hmap, hchan]
  rw [show (1 * 1 : ℕ) = 1 from rfl, show List.range 1 = [0] from by decide,
    List.foldl_cons, List.foldl_nil]
  dsimp only
  exact applyPixel_zeroNoise M lumDep (s : ℚ) sm

/-- Witness for C4 (amended) at seed `1`, time value `0`, with
luminance-dependent scaling enabled. -/
theorem C4_zero_noise_amended_witness :
    (natNext 1 ≠ 0 ∧ natNext (natChannelSeed 1 0) ≠ 0 ∧
      natNext (natNext^[2] (natChannelSeed 1 0)) ≠ 0 ∧
      natNext (natNext^[4] (natChannelSeed 1 0)) ≠ 0) ∧
    (applyNoise sampleMath [250, 250, 250] 1 1
      (zeroNoiseConfig true ((1 : ℕ) : ℚ) none) 0).2 = [250, 250, 250] :=
  ⟨⟨by decide, by decide, by decide, by decide⟩,
    C4_zero_noise_amended sampleMath true none 1 0
      (by decide) (by decide) (by decide) (by decide)⟩

/-! ## Evaluation lemmas for the zero-uniform-draw seed (C4 counterexample) -/

theorem jadd_nan (v : JVal) : JVal.jadd JVal.nan v = JVal.nan := by
  cases v <;> rfl

theorem jmin_num_nan (a : ℚ) : JVal.jmin (JVal.num a) JVal.nan = JVal.nan := rfl

theorem jmax_num_nan (a : ℚ) : JVal.jmax (JVal.num a) JVal.nan = JVal.nan := rfl

theorem jmul_neg_two_ninf : JVal.jmul (JVal.num (-2)) JVal.ninf = JVal.inf := by
  simp only [JVal.jmul]
  rw [if_neg (by norm_num : ¬(0 : ℚ) < -2), if_pos (by norm_num : (-2 : ℚ) < 0)]

theorem jmul_inf_num_zero : JVal.jmul JVal.inf (JVal.num 0) = JVal.nan := by
  simp only [JVal.jmul]
  rw [if_neg (lt_irrefl (0 : ℚ)), if_neg (lt_irrefl (0 : ℚ))]

/-- The first uniform draw from seed `634785765` is exactly `0.0`: the
LCG maps this seed to state `0`. -/
theorem nextVal_bad_seed : nextVal (634785765 : ℚ) = 0 := by
  have h := nextVal_natCast 634785765
  norm_num [natNext] at h
  exact h

/-- From seed `634785765` with standard deviation `0` the gaussian draw
is `NaN`: `log 0 = -∞`, `sqrt(-2 · -∞) = ∞`, and `∞ × 0 = NaN`. -/
theorem gaussian_bad_seed (mean : ℚ) :
    (gaussian sampleMath mean 0 (634785765 : ℚ)).1 = JVal.nan := by
  unfold gaussian
  dsimp only
  rw [nextVal_bad_seed]
  simp only [jlog, eq_self_iff_true, if_true]
  rw [jmul_neg_two_ninf,
    show jsqrt sampleMath JVal.inf = JVal.inf from rfl,
    show jcos sampleMath (JVal.num (2 * sampleMath.pi *
      nextVal (nextState 634785765))) = JVal.num 0 from rfl,
    jmul_inf_num_zero, jmul_nan_num, jadd_num_nan]

/-- The base noise field at the zero-uniform-draw seed: a single `NaN`. -/
theorem sensorMap_bad_seed (now : ℕ) :
    generateSensorNoiseMap sampleMath 1 1 c4CexConfig now = [JVal.nan] := by
  unfold generateSensorNoiseMap
  rw [show (1 * 1 : ℕ) = 1 from rfl,
    show seedOrNow c4CexConfig.seed now = (634785765 : ℚ) from rfl, genList_one]
  unfold noiseMapStep
  dsimp only
  rw [if_neg (by rw [show c4CexConfig.variance = 0 from rfl]; exact lt_irrefl 0),
    show c4CexConfig.intensity = 0 from rfl, gaussian_bad_seed, jmul_nan_num,
    show jf32 sampleMath JVal.nan = JVal.nan from rfl]

/-- The per-pixel pass with a `NaN` base noise value: every channel
contribution is `NaN`, the clamp propagates it, and the byte store
coerces it to `0`. -/
theorem applyPixel_bad_seed :
    applyPixel sampleMath c4CexConfig [JVal.nan] [JVal.num 0] [JVal.num 0]
      [JVal.num 0] [250, 250, 250] 0 = [0, 0, 0] := by
  simp only [applyPixel,
    show c4CexConfig.luminanceDependent = false from rfl,
    show noiseRead [JVal.nan] 0 = JVal.nan from rfl,
    show noiseRead [JVal.num 0] 0 = JVal.num 0 from rfl,
    jadd_nan, jmul_nan_num, Bool.false_eq_true, if_false]
  rw [show bufRead [250, 250, 250] (0 * 3) = JVal.num ((250 : ℕ) : ℚ) from rfl,
    show bufRead [250, 250, 250] (0 * 3 + 1) = JVal.num ((250 : ℕ) : ℚ) from rfl,
    show bufRead [250, 250, 250] (0 * 3 + 2) = JVal.num ((250 : ℕ) : ℚ) from rfl]
  rw [jadd_num_nan]
  rw [show clamp JVal.nan (JVal.num 0) (JVal.num 255) = JVal.nan from rfl,
    show toUint8 JVal.nan = 0 from rfl]
  decide

/-- C4 counterexample: the claim quantifies over every seed, but at seed
`634785765` — a valid nonnegative integer seed whose first LCG state is
exactly `0` — the first uniform draw is exactly `0.0`, the base gaussian
is `NaN` even though `intensity = variance = microContrast = 0`, and the
1×1 image `(250, 250, 250)` comes out as `(0, 0, 0)`, not
`(250, 250, 250)`. -/
theorem C4_cex_zero_uniform_draw :
    (applyNoise sampleMath [250, 250, 250] 1 1 c4CexConfig 0).2 = [0, 0, 0] ∧
    (applyNoise sampleMath [250, 250, 250] 1 1 c4CexConfig 0).2 ≠ [250, 250, 250] ∧
    c4CexConfig.intensity = 0 ∧ c4CexConfig.variance = 0 ∧
    c4CexConfig.microContrast = 0 ∧ c4CexConfig.seed = some 634785765 := by
  have hchan : generateChannelNoise sampleMath 1 1 c4CexConfig 0 =
      ([JVal.num 0], [JVal.num 0], [JVal.num 0]) := by
    have hc : ((634785765 : ℕ) : ℚ) = (634785765 : ℚ) := by norm_num
    have h := channelNoise_zeroNoise sampleMath false none 634785765 0
      (by decide) (by decide) (by decide)
    rw [hc] at h
    exact h
  have hout : (applyNoise sampleMath [250, 250, 250] 1 1 c4CexConfig 0).2 = [0, 0, 0] := by
    simp only [applyNoise]
    rw [sensorMap_bad_seed 0, hchan]
    rw [show (1 * 1 : ℕ) = 1 from rfl, show List.range 1 = [0] from by decide,
    List.foldl_cons, List.foldl_nil]
    dsimp only
    exact applyPixel_bad_seed
  refine ⟨hout, ?_, rfl, rfl, rfl, rfl⟩
  rw [hout]
  decide

end NoiseImage
